import Mathlib

/-!
Verification of the plant-simulation core of src/Plant-Game.tsx.

The simulation state (water level, watering flag, per-leaf health set,
per-leaf animated scale and target, pending prune timeouts, growth level)
is embedded as a Lean structure; each timer callback and event handler of
the source becomes a pure state-transition function.  Real-valued
quantities are modelled as rationals.
-/

namespace PlantGame

/-- A leaf index: the source creates exactly 7 leaves (6 side + 1 top). -/
abbrev Leaf := Fin 7

/-- Easing configuration passed to the spring api in the source: either a
spring characterised by tension and friction, or a fixed duration in
milliseconds. -/
inductive Easing
  | spring (tension friction : ℕ)
  | duration (ms : ℕ)
deriving DecidableEq

/-- Interval of the moisture update timer in the source: setInterval(..., 100). -/
def moistureIntervalMs : ℕ := 100

/-- Interval of the bad-leaf (damage) timer in the source: setInterval(..., 1000). -/
def badLeafIntervalMs : ℕ := 1000

/-- Delay before the second half of the prune sequence: setTimeout(..., 600). -/
def pruneDelayMs : ℕ := 600

/-- One 100ms moisture tick, from the water-level effect of the source:
if watering, the level becomes min(1, w + 0.02); otherwise it becomes
max(0, w - 0.002). -/
def moistureTick (watering : Bool) (w : ℚ) : ℚ :=
  if watering then min 1 (w + 0.02) else max 0 (w - 0.002)

/-- The per-tick damage probability, from getBadLeafChance in the source:
0.01 + (1 - waterLevel) * 0.24. -/
def getBadLeafChance (w : ℚ) : ℚ :=
  0.01 + (1 - w) * 0.24

/-- The simulation state: the mutable variables and refs of the App
component that the core logic reads and writes. -/
structure SimState where
  waterLevel : ℚ
  watering : Bool
  holding : Bool
  showWaterEffect : Bool
  badLeaves : Finset Leaf
  scale : Leaf → ℚ
  target : Leaf → ℚ
  easing : Leaf → Easing
  pendingPrune : Leaf → ℕ
  growthLevel : ℚ

/-- The initial state of the component: waterLevel starts at 1 (useState(1)),
growthLevel at 0 (useState(0)), no bad leaves, no watering.  The useSprings
call initialises every spring with scale 1 and config tension 180 /
friction 18 (note: the source comment above that call says the leaves
start at scale 0, but the config passed sets scale to 1). -/
def initState : SimState :=
  { waterLevel := 1
    watering := false
    holding := false
    showWaterEffect := false
    badLeaves := ∅
    scale := fun _ => 1
    target := fun _ => 1
    easing := fun _ => Easing.spring 180 18
    pendingPrune := fun _ => 0
    growthLevel := 0 }

/-- One moisture-timer callback: update waterLevel by moistureTick. -/
def moistureStep (s : SimState) : SimState :=
  { s with waterLevel := moistureTick s.watering s.waterLevel }

/-- The list of healthy-leaf indices, from the damage callback of the
source: indices 0..6 filtered to those not in badLeaves. -/
def healthyCandidates (bad : Finset Leaf) : List Leaf :=
  (List.finRange 7).filter (fun i => i ∉ bad)

/-- The body of the damage callback once the random draw succeeded: if a
healthy candidate exists, pick one (the source picks index
floor(random * length); here the choice is supplied as a natural number
reduced modulo the candidate count, which ranges over exactly the same
indices) and insert it into badLeaves. -/
def damagePick (pick : ℕ) (s : SimState) : SimState :=
  if h : (healthyCandidates s.badLeaves).length ≠ 0 then
    { s with badLeaves :=
        insert ((healthyCandidates s.badLeaves).get
          ⟨pick % (healthyCandidates s.badLeaves).length,
           Nat.mod_lt _ (Nat.pos_of_ne_zero h)⟩) s.badLeaves }
  else s

/-- One bad-leaf-timer callback: draw a uniform sample; if it is below
getBadLeafChance of the current water level, attempt to damage one healthy
leaf.  The two random draws of the source are the parameters sample and
pick. -/
def damageStep (sample : ℚ) (pick : ℕ) (s : SimState) : SimState :=
  if sample < getBadLeafChance s.waterLevel then damagePick pick s else s

/-- The growth-level aggregation of the animation loop: sum the current
scale over leaves not in badLeaves and divide by the fixed count 7. -/
def computeGrowth (scales : Leaf → ℚ) (bad : Finset Leaf) : ℚ :=
  (∑ i in Finset.univ.filter (fun i => i ∉ bad), scales i) / 7

/-- One animation frame: the springs advance to new values f (constrained
by the Step relation below), and growthLevel is recomputed from the new
scales and the current bad-leaf set. -/
def frameStep (f : Leaf → ℚ) (s : SimState) : SimState :=
  { s with scale := f, growthLevel := computeGrowth f s.badLeaves }

/-- The click handler resolved to leaf i: if leaf i is in badLeaves, start
the prune sequence: animate its scale target to 0 with the default spring
config and schedule the 600ms timeout (counted in pendingPrune).  The
bad-leaf set is NOT changed here; the leaf is only removed by the timeout
body (pruneFire).  A click on a healthy leaf does nothing. -/
def pickLeaf (i : Leaf) (s : SimState) : SimState :=
  if i ∈ s.badLeaves then
    { s with
        target := Function.update s.target i 0
        easing := Function.update s.easing i (Easing.spring 180 18)
        pendingPrune := Function.update s.pendingPrune i (s.pendingPrune i + 1) }
  else s

/-- The body of the 600ms prune timeout for leaf i: delete i from
badLeaves, restore the healthy material, and animate the scale target back
to 1 with a fixed 22000ms duration config.  It runs once per scheduled
timeout (pendingPrune counts those). -/
def pruneFire (i : Leaf) (s : SimState) : SimState :=
  if s.pendingPrune i ≠ 0 then
    { s with
        badLeaves := s.badLeaves.erase i
        target := Function.update s.target i 1
        easing := Function.update s.easing i (Easing.duration 22000)
        pendingPrune := Function.update s.pendingPrune i (s.pendingPrune i - 1) }
  else s

/-- A watering-gesture effect on the simulation variables: the pointer
handlers only ever write the three booleans watering, holding and
showWaterEffect; this transition over-approximates every such write. -/
def setGesture (w h e : Bool) (s : SimState) : SimState :=
  { s with watering := w, holding := h, showWaterEffect := e }

/-- Modelled from the spec: the spring library (not part of src/) animates
each scale monotonically between its current value and its target, so one
frame may move a scale to any value between the two. -/
def scaleBetween (a b x : ℚ) : Prop :=
  min a b ≤ x ∧ x ≤ max a b

/-- One event of the simulation: a moisture tick, a damage tick, an
animation frame, a leaf click, a prune timeout firing, or a
gesture-handler write to the watering booleans. -/
inductive Step : SimState → SimState → Prop
  | moisture (s : SimState) : Step s (moistureStep s)
  | damage (s : SimState) (sample : ℚ) (pick : ℕ) : Step s (damageStep sample pick s)
  | frame (s : SimState) (f : Leaf → ℚ)
      (hf : ∀ i, scaleBetween (s.scale i) (s.target i) (f i)) :
      Step s (frameStep f s)
  | pick (s : SimState) (i : Leaf) : Step s (pickLeaf i s)
  | prune (s : SimState) (i : Leaf) : Step s (pruneFire i s)
  | gesture (s : SimState) (w h e : Bool) : Step s (setGesture w h e s)

/-- A state reachable from the initial state by any sequence of events. -/
inductive Reachable : SimState → Prop
  | init : Reachable initState
  | step {s s' : SimState} : Reachable s → Step s s' → Reachable s'

/-! ## Basic lemmas about the transition functions -/

lemma moistureTick_bounds (b : Bool) (w : ℚ) (h0 : 0 ≤ w) (h1 : w ≤ 1) :
    0 ≤ moistureTick b w ∧ moistureTick b w ≤ 1 := by
  cases b <;> simp only [moistureTick, if_true, if_false, Bool.false_eq_true] <;> constructor
  · exact le_max_left 0 _
  · exact max_le (by norm_num) (by linarith)
  · exact le_min (by norm_num) (by linarith)
  · exact min_le_left 1 _

lemma damagePick_waterLevel (p : ℕ) (s : SimState) :
    (damagePick p s).waterLevel = s.waterLevel := by
  unfold damagePick; split <;> rfl

lemma damagePick_scale (p : ℕ) (s : SimState) :
    (damagePick p s).scale = s.scale := by
  unfold damagePick; split <;> rfl

lemma damagePick_target (p : ℕ) (s : SimState) :
    (damagePick p s).target = s.target := by
  unfold damagePick; split <;> rfl

lemma damagePick_growthLevel (p : ℕ) (s : SimState) :
    (damagePick p s).growthLevel = s.growthLevel := by
  unfold damagePick; split <;> rfl

lemma damageStep_waterLevel (q : ℚ) (p : ℕ) (s : SimState) :
    (damageStep q p s).waterLevel = s.waterLevel := by
  unfold damageStep; split
  · exact damagePick_waterLevel p s
  · rfl

lemma damageStep_scale (q : ℚ) (p : ℕ) (s : SimState) :
    (damageStep q p s).scale = s.scale := by
  unfold damageStep; split
  · exact damagePick_scale p s
  · rfl

lemma damageStep_target (q : ℚ) (p : ℕ) (s : SimState) :
    (damageStep q p s).target = s.target := by
  unfold damageStep; split
  · exact damagePick_target p s
  · rfl

lemma damageStep_growthLevel (q : ℚ) (p : ℕ) (s : SimState) :
    (damageStep q p s).growthLevel = s.growthLevel := by
  unfold damageStep; split
  · exact damagePick_growthLevel p s
  · rfl

lemma pickLeaf_waterLevel (i : Leaf) (s : SimState) :
    (pickLeaf i s).waterLevel = s.waterLevel := by
  unfold pickLeaf; split <;> rfl

lemma pickLeaf_scale (i : Leaf) (s : SimState) :
    (pickLeaf i s).scale = s.scale := by
  unfold pickLeaf; split <;> rfl

lemma pickLeaf_growthLevel (i : Leaf) (s : SimState) :
    (pickLeaf i s).growthLevel = s.growthLevel := by
  unfold pickLeaf; split <;> rfl

lemma pickLeaf_target_bounds (i : Leaf) (s : SimState)
    (h : ∀ j, 0 ≤ s.target j ∧ s.target j ≤ 1) :
    ∀ j, 0 ≤ (pickLeaf i s).target j ∧ (pickLeaf i s).target j ≤ 1 := by
  intro j
  unfold pickLeaf; split
  · simp only [Function.update_apply]
    by_cases hj : j = i
    · simp [hj]
    · simpa [hj] using h j
  · exact h j

lemma pruneFire_waterLevel (i : Leaf) (s : SimState) :
    (pruneFire i s).waterLevel = s.waterLevel := by
  unfold pruneFire; split <;> rfl

lemma pruneFire_scale (i : Leaf) (s : SimState) :
    (pruneFire i s).scale = s.scale := by
  unfold pruneFire; split <;> rfl

lemma pruneFire_growthLevel (i : Leaf) (s : SimState) :
    (pruneFire i s).growthLevel = s.growthLevel := by
  unfold pruneFire; split <;> rfl

lemma pruneFire_target_bounds (i : Leaf) (s : SimState)
    (h : ∀ j, 0 ≤ s.target j ∧ s.target j ≤ 1) :
    ∀ j, 0 ≤ (pruneFire i s).target j ∧ (pruneFire i s).target j ≤ 1 := by
  intro j
  unfold pruneFire; split
  · simp only [Function.update_apply]
    by_cases hj : j = i
    · simp [hj]
    · simpa [hj] using h j
  · exact h j

lemma computeGrowth_bounds (f : Leaf → ℚ) (bad : Finset Leaf)
    (hf : ∀ i, 0 ≤ f i ∧ f i ≤ 1) :
    0 ≤ computeGrowth f bad ∧ computeGrowth f bad ≤ 1 := by
  constructor
  · exact div_nonneg (Finset.sum_nonneg fun i _ => (hf i).1) (by norm_num)
  · rw [computeGrowth, div_le_one (by norm_num)]
    calc (∑ i in Finset.univ.filter (fun i => i ∉ bad), f i)
        ≤ ∑ _i in Finset.univ.filter (fun i => i ∉ bad), (1 : ℚ) :=
          Finset.sum_le_sum fun i _ => (hf i).2
      _ = ((Finset.univ.filter (fun i => i ∉ bad)).card : ℚ) := by
          simp
      _ ≤ 7 := by
          have h := Finset.card_filter_le (Finset.univ : Finset Leaf)
            (fun i => i ∉ bad)
          have h7 : (Finset.univ : Finset Leaf).card = 7 := by simp
          exact_mod_cast h7 ▸ h

/-! ## The reachable-state invariant -/

/-- The inductive invariant: waterLevel, every scale, every target and
growthLevel all lie in the unit interval. -/
def Inv (s : SimState) : Prop :=
  (0 ≤ s.waterLevel ∧ s.waterLevel ≤ 1) ∧
  (∀ i, 0 ≤ s.scale i ∧ s.scale i ≤ 1) ∧
  (∀ i, 0 ≤ s.target i ∧ s.target i ≤ 1) ∧
  (0 ≤ s.growthLevel ∧ s.growthLevel ≤ 1)

lemma Inv_init : Inv initState := by
  refine ⟨⟨?_, ?_⟩, ?_, ?_, ?_, ?_⟩ <;> simp [initState]

lemma Inv_step {s s' : SimState} (hs : Step s s') (h : Inv s) : Inv s' := by
  obtain ⟨hw, hsc, htg, hg⟩ := h
  cases hs with
  | moisture =>
      exact ⟨moistureTick_bounds s.watering s.waterLevel hw.1 hw.2, hsc, htg, hg⟩
  | damage q p =>
      refine ⟨?_, ?_, ?_, ?_⟩
      · rw [damageStep_waterLevel]; exact hw
      · rw [damageStep_scale]; exact hsc
      · rw [damageStep_target]; exact htg
      · rw [damageStep_growthLevel]; exact hg
  | frame f hf =>
      have hfb : ∀ i, 0 ≤ f i ∧ f i ≤ 1 := by
        intro i
        obtain ⟨hlo, hhi⟩ := hf i
        constructor
        · exact le_trans (le_min (hsc i).1 (htg i).1) hlo
        · exact le_trans hhi (max_le (hsc i).2 (htg i).2)
      exact ⟨hw, hfb, htg, computeGrowth_bounds f s.badLeaves hfb⟩
  | pick i =>
      refine ⟨?_, ?_, pickLeaf_target_bounds i s htg, ?_⟩
      · rw [pickLeaf_waterLevel]; exact hw
      · rw [pickLeaf_scale]; exact hsc
      · rw [pickLeaf_growthLevel]; exact hg
  | prune i =>
      refine ⟨?_, ?_, pruneFire_target_bounds i s htg, ?_⟩
      · rw [pruneFire_waterLevel]; exact hw
      · rw [pruneFire_scale]; exact hsc
      · rw [pruneFire_growthLevel]; exact hg
  | gesture w h e =>
      exact ⟨hw, hsc, htg, hg⟩

lemma Inv_reachable {s : SimState} (h : Reachable s) : Inv s := by
  induction h with
  | init => exact Inv_init
  | step _ hs ih => exact Inv_step hs ih

/-! ## Claim theorems -/

/-- Claim C1: on every fixed 100ms moisture tick, if watering is active the
water level becomes min(1, w + 0.02), otherwise it becomes
max(0, w - 0.002), and exactly one of the two rules applies. -/
theorem moisture_tick_rule (s : SimState) :
    moistureIntervalMs = 100 ∧
    (s.watering = true →
      (moistureStep s).waterLevel = min 1 (s.waterLevel + 0.02)) ∧
    (s.watering = false →
      (moistureStep s).waterLevel = max 0 (s.waterLevel - 0.002)) ∧
    ¬(s.watering = true ∧ s.watering = false) := by
  refine ⟨rfl, ?_, ?_, ?_⟩
  · intro h; simp [moistureStep, moistureTick, h]
  · intro h; simp [moistureStep, moistureTick, h]
  · rintro ⟨h1, h2⟩; rw [h1] at h2; exact Bool.noConfusion h2

/-- Witness for C1: evaluated at the initial state (watering off, level 1),
one moisture tick gives max(0, 1 - 0.002). -/
theorem moisture_tick_rule_witness :
    (moistureStep initState).waterLevel = max 0 (initState.waterLevel - 0.002) :=
  (moisture_tick_rule initState).2.2.1 rfl

/-- Claim C3: the damage probability is 0.01 + (1 - w) * 0.24 for every
water level; it equals 0.25 at empty, 0.01 at full, and is a strictly
decreasing affine function of the water level. -/
theorem bad_leaf_chance_affine :
    getBadLeafChance 0 = 0.25 ∧
    getBadLeafChance 1 = 0.01 ∧
    (∀ w, getBadLeafChance w = 0.01 + (1 - w) * 0.24) ∧
    (∃ a b : ℚ, a < 0 ∧ ∀ w, getBadLeafChance w = a * w + b) ∧
    StrictAnti getBadLeafChance := by
  refine ⟨by norm_num [getBadLeafChance], by norm_num [getBadLeafChance],
    fun w => rfl, ⟨-0.24, 0.25, by norm_num, fun w => by
      simp only [getBadLeafChance]; ring⟩, ?_⟩
  intro a b hab
  simp only [getBadLeafChance]
  nlinarith

/-- Witness for C3: the strict-antitonicity part applied at 0 < 1. -/
theorem bad_leaf_chance_affine_witness :
    getBadLeafChance 1 < getBadLeafChance 0 :=
  bad_leaf_chance_affine.2.2.2.2 (by norm_num)

/-- Claim C4: after any animation frame, the growth level equals the sum of
the scales of leaves outside the unhealthy set divided by the fixed total
leaf count 7 (unhealthy leaves contribute 0 to the numerator; the
denominator is always 7). -/
theorem frame_growth_formula (f : Leaf → ℚ) (s : SimState) :
    (frameStep f s).growthLevel =
      (∑ i : Leaf, if i ∈ s.badLeaves then 0 else f i) / 7 := by
  simp only [frameStep, computeGrowth]
  congr 1
  rw [Finset.sum_filter]
  refine Finset.sum_congr rfl fun i _ => ?_
  by_cases h : i ∈ s.badLeaves <;> simp [h]

/-- Claim C2: every reachable state has waterLevel and growthLevel in the
unit interval. -/
theorem reachable_water_growth_bounds (s : SimState) (h : Reachable s) :
    (0 ≤ s.waterLevel ∧ s.waterLevel ≤ 1) ∧
    (0 ≤ s.growthLevel ∧ s.growthLevel ≤ 1) := by
  obtain ⟨hw, _, _, hg⟩ := Inv_reachable h
  exact ⟨hw, hg⟩

/-- Witness for C2: the bounds evaluated at the initial state, which is
reachable. -/
theorem reachable_water_growth_bounds_witness :
    (0 ≤ initState.waterLevel ∧ initState.waterLevel ≤ 1) ∧
    (0 ≤ initState.growthLevel ∧ initState.growthLevel ≤ 1) :=
  reachable_water_growth_bounds initState Reachable.init

/-! ## Pruning (claims C5 and C8) -/

/-- A concrete state in which exactly leaf 0 is unhealthy. -/
def oneBadState : SimState :=
  { initState with badLeaves := {(0 : Leaf)} }

/-- Counterexample to C5 as stated: clicking the unhealthy leaf 0 does NOT
set its health back to healthy immediately; the leaf is still in the
unhealthy set right after the click (it is only removed by the 600ms
timeout body). -/
theorem prune_not_immediately_healthy :
    (0 : Leaf) ∈ (pickLeaf 0 oneBadState).badLeaves ∧
    (pickLeaf 0 oneBadState).target 0 = 0 := by
  constructor
  · decide
  · decide

/-- Claim C5 (amended): clicking a currently-unhealthy leaf i immediately
drives its scale target to 0 under the default spring easing
(tension 180 / friction 18) and schedules the 600ms timeout, while leaf i
stays marked unhealthy; when that timeout fires, leaf i is marked healthy
and its scale target is animated back to 1 under a fixed 22000ms duration
easing. -/
theorem prune_sequence_behaviour (s : SimState) (i : Leaf)
    (h : i ∈ s.badLeaves) :
    (pickLeaf i s).target i = 0 ∧
    (pickLeaf i s).easing i = Easing.spring 180 18 ∧
    i ∈ (pickLeaf i s).badLeaves ∧
    (pickLeaf i s).pendingPrune i = s.pendingPrune i + 1 ∧
    pruneDelayMs = 600 ∧
    (∀ s' : SimState, s'.pendingPrune i ≠ 0 →
      i ∉ (pruneFire i s').badLeaves ∧
      (pruneFire i s').target i = 1 ∧
      (pruneFire i s').easing i = Easing.duration 22000) := by
  refine ⟨?_, ?_, ?_, ?_, rfl, ?_⟩
  · simp [pickLeaf, h]
  · simp [pickLeaf, h]
  · simp [pickLeaf, h]
  · simp [pickLeaf, h]
  · intro s' hp
    refine ⟨?_, ?_, ?_⟩
    · simp [pruneFire, hp]
    · simp [pruneFire, hp]
    · simp [pruneFire, hp]

/-- Witness for C5 (amended): the timeout body evaluated after a click on
the unhealthy leaf 0 of the concrete one-bad-leaf state. -/
theorem prune_sequence_behaviour_witness :
    (0 : Leaf) ∉ (pruneFire 0 (pickLeaf 0 oneBadState)).badLeaves ∧
    (pruneFire 0 (pickLeaf 0 oneBadState)).target 0 = 1 ∧
    (pruneFire 0 (pickLeaf 0 oneBadState)).easing 0 = Easing.duration 22000 :=
  (prune_sequence_behaviour oneBadState 0 (by decide)).2.2.2.2.2
    (pickLeaf 0 oneBadState) (by decide)

/-- Counterexample to C8 as stated: in the one-bad-leaf state, two
successive clicks on leaf 0 both pass the unhealthy guard (the leaf is
only removed from the set by the 600ms timeout), so TWO prune sequences
are scheduled for the same leaf. -/
theorem double_pick_two_sequences :
    (pickLeaf 0 (pickLeaf 0 oneBadState)).pendingPrune 0 = 2 := by
  decide

/-- Claim C8 (amended): a click on a leaf outside the unhealthy set is a
no-op, so once the 600ms step removes leaf i from the set no further click
starts a sequence; but a second click on leaf i while it is still marked
unhealthy (during the 600ms window) does schedule a second concurrent
sequence. -/
theorem pick_guard_behaviour (s : SimState) (i : Leaf) :
    (i ∉ s.badLeaves → pickLeaf i s = s) ∧
    (i ∈ s.badLeaves →
      (pickLeaf i (pickLeaf i s)).pendingPrune i = s.pendingPrune i + 2) := by
  constructor
  · intro h; simp [pickLeaf, h]
  · intro h
    have h2 : i ∈ (pickLeaf i s).badLeaves := by simp [pickLeaf, h]
    simp [pickLeaf, h, h2]

/-- Witness for C8 (amended): on the initial state (no unhealthy leaves) a
click on leaf 0 is a no-op, and on the one-bad-leaf state two clicks on
leaf 0 leave two sequences pending. -/
theorem pick_guard_behaviour_witness :
    pickLeaf 0 initState = initState ∧
    (pickLeaf 0 (pickLeaf 0 oneBadState)).pendingPrune 0 =
      oneBadState.pendingPrune 0 + 2 :=
  ⟨(pick_guard_behaviour initState 0).1 (by decide),
   (pick_guard_behaviour oneBadState 0).2 (by decide)⟩

/-! ## Initial bloom (claim C6) -/

/-- The per-leaf initial spring props passed to useSprings in the source:
scale 1 with the tension 180 / friction 18 config (the adjacent source
comment says the leaves start at scale 0, but the value passed is 1). -/
def useSpringsInit (_i : Leaf) : ℚ × Easing :=
  (1, Easing.spring 180 18)

/-- The per-leaf props passed to api.start on mount in the source:
target scale 1 with the tension 180 / friction 18 config. -/
def mountStart (_i : Leaf) : ℚ × Easing :=
  (1, Easing.spring 180 18)

/-- Claim C6 is a code bug: every spring already starts at scale 1
(useSprings passes scale 1, contradicting the source comment that the
leaves start at scale 0), and the mount-time api.start also targets 1, so
no spring value ever transitions from 0 to 1 at simulation start. -/
theorem initial_scale_already_one :
    ∀ i : Leaf,
      (useSpringsInit i).1 = 1 ∧
      (useSpringsInit i).1 ≠ 0 ∧
      (mountStart i).1 = (useSpringsInit i).1 ∧
      initState.scale i = 1 := by
  decide

/-! ## Absorbing all-unhealthy state (claim C7) -/

/-- Iterate the damage step over a list of random draws (sample, pick). -/
def damageIter (draws : List (ℚ × ℕ)) (s : SimState) : SimState :=
  draws.foldl (fun st d => damageStep d.1 d.2 st) s

lemma healthyCandidates_univ :
    healthyCandidates (Finset.univ : Finset Leaf) = [] := by
  decide

lemma damagePick_of_no_candidates (p : ℕ) (s : SimState)
    (h : healthyCandidates s.badLeaves = []) : damagePick p s = s := by
  have hl : ¬(healthyCandidates s.badLeaves).length ≠ 0 := by simp [h]
  unfold damagePick
  rw [dif_neg hl]

lemma damageStep_of_all_bad (q : ℚ) (p : ℕ) (s : SimState)
    (h : s.badLeaves = Finset.univ) : damageStep q p s = s := by
  have hc : healthyCandidates s.badLeaves = [] := by
    rw [h]; exact healthyCandidates_univ
  unfold damageStep
  split
  · exact damagePick_of_no_candidates p s hc
  · rfl

/-- Claim C7: if all 7 leaves are unhealthy, the damage step is a no-op
for every random draw, so any number of damage ticks leaves the unhealthy
set unchanged at cardinality 7. -/
theorem all_unhealthy_absorbing (s : SimState)
    (h : s.badLeaves = Finset.univ) (draws : List (ℚ × ℕ)) :
    damageIter draws s = s ∧
    (damageIter draws s).badLeaves = Finset.univ ∧
    (damageIter draws s).badLeaves.card = 7 := by
  have key : damageIter draws s = s := by
    induction draws with
    | nil => rfl
    | cons d rest ih =>
        unfold damageIter at ih ⊢
        rw [List.foldl_cons, damageStep_of_all_bad d.1 d.2 s h]
        exact ih
  refine ⟨key, ?_, ?_⟩
  · rw [key, h]
  · rw [key, h]; simp

/-- A concrete state in which all 7 leaves are unhealthy. -/
def allBadState : SimState :=
  { initState with badLeaves := Finset.univ }

/-- Witness for C7: two concrete damage draws on the all-unhealthy state,
one of which would pass the probability test (sample 0 is below every
chance value), leave the set at all 7 leaves. -/
theorem all_unhealthy_absorbing_witness :
    damageIter [(0, 3), (1, 0)] allBadState = allBadState ∧
    (damageIter [(0, 3), (1, 0)] allBadState).badLeaves = Finset.univ ∧
    (damageIter [(0, 3), (1, 0)] allBadState).badLeaves.card = 7 :=
  all_unhealthy_absorbing allBadState rfl [(0, 3), (1, 0)]

/-! ## Watering gesture state machine (claim C9)

The three pointer handlers and the two timeouts they schedule are embedded
as a timed event machine: a state holds the variables the handlers touch
plus the deadline of the currently tracked hold timeout and watering
timeout (the timeout refs of the source), and events carry the wall-clock
time at which they occur.  A timer event is enabled only at exactly its
recorded deadline. -/

/-- An event of the watering gesture machine: the three pointer handlers
of the source plus the firing of the two timeouts they schedule. -/
inductive GEvent
  | down
  | up
  | leave
  | holdFire
  | waterFire
deriving DecidableEq

/-- The gesture-machine state: the watering booleans plus the deadlines of
the tracked hold timeout and watering timeout (none when the tracked
timeout is cleared or consumed). -/
structure GState where
  holding : Bool
  watering : Bool
  showWaterEffect : Bool
  holdDeadline : Option ℚ
  waterDeadline : Option ℚ
deriving DecidableEq

/-- The gesture state before any pointer input. -/
def gInit : GState :=
  { holding := false
    watering := false
    showWaterEffect := false
    holdDeadline := none
    waterDeadline := none }

/-- One gesture event at time t, from the source handlers:
down clears the tracked watering timeout, sets holding and schedules the
hold timeout for t + 1000; up and leave clear both tracked timeouts,
clear holding and (if watering) clear watering and the effect flag; the
hold timeout firing sets watering and the effect flag and schedules the
watering timeout for t + 1200; the watering timeout firing clears both.
Timer events return none unless their recorded deadline is exactly t. -/
def gStep (t : ℚ) (e : GEvent) (s : GState) : Option GState :=
  match e with
  | GEvent.down =>
      some { s with
        waterDeadline := none
        holding := true
        holdDeadline := some (t + 1000) }
  | GEvent.up =>
      some { s with
        holding := false
        holdDeadline := none
        waterDeadline := none
        watering := false
        showWaterEffect := false }
  | GEvent.leave =>
      some { s with
        holding := false
        holdDeadline := none
        waterDeadline := none
        watering := false
        showWaterEffect := false }
  | GEvent.holdFire =>
      if s.holdDeadline = some t then
        some { s with
          holdDeadline := none
          watering := true
          showWaterEffect := true
          waterDeadline := some (t + 1200) }
      else none
  | GEvent.waterFire =>
      if s.waterDeadline = some t then
        some { s with
          waterDeadline := none
          watering := false
          showWaterEffect := false }
      else none

/-- Run a list of timestamped gesture events from a state; fails if event
times go backwards or a timer event is not enabled at its time. -/
def runFrom (now : ℚ) (s : GState) : List (ℚ × GEvent) → Option GState
  | [] => some s
  | (t, e) :: rest =>
      if now ≤ t then (gStep t e s).bind (fun s' => runFrom t s' rest)
      else none

/-- The state right after a pointer down at time 0. -/
def gAfterDown : GState :=
  { holding := true
    watering := false
    showWaterEffect := false
    holdDeadline := some 1000
    waterDeadline := none }

/-- The state right after the hold timeout fires at time 1000. -/
def gWatering : GState :=
  { holding := true
    watering := true
    showWaterEffect := true
    holdDeadline := none
    waterDeadline := some 2200 }

lemma runFrom_nil (now : ℚ) (s : GState) : runFrom now s [] = some s := rfl

lemma runFrom_cons (now t : ℚ) (e : GEvent) (rest : List (ℚ × GEvent))
    (s : GState) :
    runFrom now s ((t, e) :: rest) =
      if now ≤ t then (gStep t e s).bind (fun s' => runFrom t s' rest)
      else none := rfl

lemma gStep_down_init : gStep 0 GEvent.down gInit = some gAfterDown := by
  simp only [gStep]
  norm_num [gInit, gAfterDown]

lemma gStep_up_afterDown : gStep 900 GEvent.up gAfterDown = some gInit := by
  simp only [gStep]
  norm_num [gInit, gAfterDown]

lemma gRunRelease :
    runFrom 0 gInit [(0, GEvent.down), (900, GEvent.up)] = some gInit := by
  rw [runFrom_cons, if_pos le_rfl, gStep_down_init, Option.some_bind,
    runFrom_cons, if_pos (by norm_num), gStep_up_afterDown, Option.some_bind,
    runFrom_nil]

lemma runFrom_append_single_le (l : List (ℚ × GEvent)) (T : ℚ) (e : GEvent) :
    ∀ (now : ℚ) (s sEnd : GState),
      runFrom now s (l ++ [(T, e)]) = some sEnd → now ≤ T := by
  induction l with
  | nil =>
      intro now s sEnd h
      rw [List.nil_append, runFrom_cons] at h
      by_contra hn
      rw [if_neg hn] at h
      exact Option.noConfusion h
  | cons p rest ih =>
      intro now s sEnd h
      obtain ⟨t, ev⟩ := p
      rw [List.cons_append, runFrom_cons] at h
      by_cases hle : now ≤ t
      · rw [if_pos hle] at h
        obtain ⟨s1, _, h2⟩ := Option.bind_eq_some.mp h
        exact le_trans hle (ih t s1 sEnd h2)
      · rw [if_neg hle] at h
        exact Option.noConfusion h

/-- Claim C9: for the watering gesture machine, a pointer down at time 0
released at time 900 can fire no timer in between (so watering stays false
in every state of the run), while a pointer down at time 0 with no release
enables the hold timeout at exactly time 1000 (entering watering) and then
the watering timeout at exactly time 2200 (leaving watering); no other
timer firing is possible in either intermediate state. -/
theorem gesture_hold_timing :
    (∀ (mid : List (ℚ × GEvent)) (sEnd : GState),
      (∀ p ∈ mid, p.2 = GEvent.holdFire ∨ p.2 = GEvent.waterFire) →
      runFrom 0 gInit ((0, GEvent.down) :: (mid ++ [(900, GEvent.up)])) =
        some sEnd →
      mid = [] ∧ sEnd.watering = false) ∧
    gStep 0 GEvent.down gInit = some gAfterDown ∧
    gAfterDown.watering = false ∧
    (∀ (t : ℚ) (s' : GState),
      gStep t GEvent.holdFire gAfterDown = some s' → t = 1000 ∧ s' = gWatering) ∧
    (∀ t : ℚ, gStep t GEvent.waterFire gAfterDown = none) ∧
    gWatering.watering = true ∧
    (∀ (t : ℚ) (s' : GState),
      gStep t GEvent.waterFire gWatering = some s' →
        t = 2200 ∧ s'.watering = false) ∧
    (∀ t : ℚ, gStep t GEvent.holdFire gWatering = none) := by
  refine ⟨?_, gStep_down_init, rfl, ?_, ?_, rfl, ?_, ?_⟩
  · intro mid sEnd hmid hrun
    rw [runFrom_cons, if_pos le_rfl, gStep_down_init, Option.some_bind] at hrun
    cases mid with
    | nil =>
        refine ⟨rfl, ?_⟩
        rw [List.nil_append, runFrom_cons, if_pos (by norm_num),
          gStep_up_afterDown, Option.some_bind, runFrom_nil] at hrun
        have : gInit = sEnd := Option.some.inj hrun
        rw [← this]
        rfl
    | cons p rest =>
        obtain ⟨t, ev⟩ := p
        exfalso
        rw [List.cons_append, runFrom_cons] at hrun
        by_cases hle : (0 : ℚ) ≤ t
        · rw [if_pos hle] at hrun
          obtain ⟨s1, h1, h2⟩ := Option.bind_eq_some.mp hrun
          rcases hmid (t, ev) (List.mem_cons_self _ _) with hev | hev
          · rw [show ev = GEvent.holdFire from hev] at h1
            simp only [gStep] at h1
            by_cases hd : gAfterDown.holdDeadline = some t
            · have ht2 : t = 1000 := by
                have hsome : some (1000 : ℚ) = some t := hd
                exact (Option.some.inj hsome).symm
              subst ht2
              have := runFrom_append_single_le rest 900 GEvent.up 1000 s1 sEnd h2
              norm_num at this
            · rw [if_neg hd] at h1
              exact Option.noConfusion h1
          · rw [show ev = GEvent.waterFire from hev] at h1
            simp only [gStep] at h1
            simp [gAfterDown] at h1
        · rw [if_neg hle] at hrun
          exact Option.noConfusion hrun
  · intro t s' h
    simp only [gStep] at h
    by_cases ht : gAfterDown.holdDeadline = some t
    · have ht2 : t = 1000 := by
        have : some (1000 : ℚ) = some t := ht
        exact (Option.some.inj this).symm
      subst ht2
      rw [if_pos ht] at h
      refine ⟨rfl, ?_⟩
      have := Option.some.inj h
      rw [← this]
      norm_num [gAfterDown, gWatering]
    · rw [if_neg ht] at h
      exact Option.noConfusion h
  · intro t
    simp only [gStep]
    simp [gAfterDown]
  · intro t s' h
    simp only [gStep] at h
    by_cases ht : gWatering.waterDeadline = some t
    · have ht2 : t = 2200 := by
        have : some (2200 : ℚ) = some t := ht
        exact (Option.some.inj this).symm
      subst ht2
      rw [if_pos ht] at h
      refine ⟨rfl, ?_⟩
      have := Option.some.inj h
      rw [← this]
    · rw [if_neg ht] at h
      exact Option.noConfusion h
  · intro t
    simp only [gStep]
    simp [gWatering]

/-- Witness for C9: the 900ms-release run evaluated concretely; the only
valid run is the one with no timer event, and it ends (and stays
throughout) with watering false. -/
theorem gesture_hold_timing_witness :
    ([] : List (ℚ × GEvent)) = [] ∧ gInit.watering = false :=
  gesture_hold_timing.1 [] gInit (by intro p hp; cases hp) gRunRelease

/-! ## Water decay from the initial state (claim C10) -/

/-- The water level after n moisture ticks from the initial state with no
watering input. -/
def noWaterLevel : ℕ → ℚ
  | 0 => initState.waterLevel
  | n + 1 => moistureTick false (noWaterLevel n)

lemma noWaterLevel_closed_form : ∀ n : ℕ, n ≤ 500 →
    noWaterLevel n = 1 - (n : ℚ) / 500 := by
  intro n
  induction n with
  | zero => intro _; simp [noWaterLevel, initState]
  | succ m ih =>
      intro hm
      have hm500 : m ≤ 500 := Nat.le_of_succ_le hm
      have hmlt : (m : ℚ) + 1 ≤ 500 := by exact_mod_cast hm
      rw [noWaterLevel, ih hm500]
      simp only [moistureTick, if_false, Bool.false_eq_true]
      rw [max_eq_right (by linarith)]
      push_cast
      ring

lemma noWaterLevel_500 : noWaterLevel 500 = 0 := by
  rw [noWaterLevel_closed_form 500 le_rfl]
  norm_num

lemma noWaterLevel_past_500 : ∀ n : ℕ, 500 ≤ n → noWaterLevel n = 0 := by
  intro n
  induction n with
  | zero => intro h; exact absurd h (by norm_num)
  | succ m ih =>
      intro hm
      rcases Nat.lt_or_ge m 500 with hlt | hge
      · have : m + 1 = 500 := le_antisymm (Nat.succ_le_of_lt hlt) hm
        rw [this]
        exact noWaterLevel_500
      · rw [noWaterLevel, ih hge]
        simp [moistureTick]
        norm_num

/-- Counterexample to C10 as stated: the water level does NOT strictly
decrease on every tick forever; after 500 ticks it has reached the clamp
at 0 and tick 501 leaves it unchanged. -/
theorem water_decay_stalls_at_zero :
    noWaterLevel 500 = 0 ∧ noWaterLevel 501 = 0 ∧
    ¬ noWaterLevel 501 < noWaterLevel 500 := by
  have h500 := noWaterLevel_500
  have h501 := noWaterLevel_past_500 501 (by norm_num)
  exact ⟨h500, h501, by rw [h500, h501]; exact lt_irrefl 0⟩

/-- Claim C10 (amended): the water level starts at 1, and with no watering
input it strictly decreases on each of the first 500 moisture ticks,
reaching the clamp at 0 on tick 500 and staying 0 from then on. -/
theorem initial_water_full_decay (n : ℕ) :
    initState.waterLevel = 1 ∧
    (n < 500 → noWaterLevel (n + 1) < noWaterLevel n) ∧
    (500 ≤ n → noWaterLevel n = 0) := by
  refine ⟨rfl, ?_, noWaterLevel_past_500 n⟩
  intro hn
  rw [noWaterLevel_closed_form n (Nat.le_of_lt hn),
    noWaterLevel_closed_form (n + 1) (Nat.succ_le_of_lt hn)]
  push_cast
  linarith

/-- Witness for C10 (amended): the first moisture tick strictly lowers the
level. -/
theorem initial_water_full_decay_witness :
    noWaterLevel 1 < noWaterLevel 0 :=
  (initial_water_full_decay 0).2.1 (by norm_num)

end PlantGame
